import Mathlib

/-!
Formal model of `src/wallDist.cc` (a wall-distance estimator built on a
Poisson solve), with theorems settling the behavioural claims about the
post-processor, the solve stage configuration, the failure semantics of
the CG solve, and the output stage.

Conventions of the embedding:
* `double` values are modelled as real numbers (`ℝ`) where square roots
  occur, and as rationals (`ℚ`) where only comparisons occur (the solver
  control logic).
* A gradient `Tensor<1,dim>` is a function `Fin dim → ℝ`; a second
  derivative `Tensor<2,dim>` is `Fin dim → Fin dim → ℝ`; a `Point<dim>`
  is `Fin dim → ℝ`.
* The per-quadrature-point loop of `compute_derived_quantities_scalar`
  becomes a `List.zipWith` over the value and gradient lists.
-/

open BigOperators

/-! ## Right-hand side and boundary values (wallDist.cc lines 107-122) -/

/-- `RightHandSide<dim>::value`: sets `return_value = 1` and returns it,
ignoring the point and the component. -/
def RightHandSide.value (dim : ℕ) (p : Fin dim → ℝ) (component : ℕ) : ℝ :=
  1

/-- `BoundaryValues<dim>::value`: returns `0.0`, ignoring the point and the
component. -/
def BoundaryValues.value (dim : ℕ) (p : Fin dim → ℝ) (component : ℕ) : ℝ :=
  0

/-! ## The post-processor (wallDist.cc lines 324-404) -/

/-- The contraction `duh[q] * duh[q]` of a rank-1 tensor with itself
(`l2_square` in the source loop body). -/
def l2_square {dim : ℕ} (g : Fin dim → ℝ) : ℝ :=
  ∑ d, g d * g d

/-- The accumulator `l1`: the loop over `d` adds `std::abs(duh[q][d])`. -/
def l1_accum {dim : ℕ} (g : Fin dim → ℝ) : ℝ :=
  ∑ d, |g d|

/-- The radicand `l2_square + 2.0*uh[q]` appearing under the square root. -/
def radicand {dim : ℕ} (u : ℝ) (g : Fin dim → ℝ) : ℝ :=
  l2_square g + 2 * u

/-- The `Assert (l2_square + 2.0*uh[q] >= 0.0, ExcMessage ("Sqrt of negative!"))`
precondition, as a proposition. -/
def assert_radicand_nonneg {dim : ℕ} (u : ℝ) (g : Fin dim → ℝ) : Prop :=
  radicand u g ≥ 0

/-- The argument actually passed to `std::sqrt`:
`std::max(l2_square + 2.0*uh[q], 0.0)`. -/
def sqrt_argument {dim : ℕ} (u : ℝ) (g : Fin dim → ℝ) : ℝ :=
  max (radicand u g) 0

/-- The body of the quadrature-point loop of
`Postprocessor<dim>::compute_derived_quantities_scalar`: given the solution
value `u = uh[q]` and gradient `g = duh[q]`, the `(dim+2)`-vector written
into `computed_quantities[q]`; components `[0..dim)` copy the gradient,
component `dim` is `sqrt(max(l2_square + 2u, 0)) - l1` (sMin) and component
`dim+1` is `sqrt(max(l2_square + 2u, 0)) + l1` (sMax). -/
noncomputable def derived_quantities_at {dim : ℕ} (u : ℝ) (g : Fin dim → ℝ) :
    Fin (dim + 2) → ℝ :=
  fun i =>
    if h : (i : ℕ) < dim then g ⟨i, h⟩
    else if (i : ℕ) = dim then Real.sqrt (sqrt_argument u g) - l1_accum g
    else Real.sqrt (sqrt_argument u g) + l1_accum g

/-- `Postprocessor<dim>::compute_derived_quantities_scalar`: loops `q` over
the quadrature points (`uh.size()` of them, with `duh` asserted to have the
same size), filling `computed_quantities[q]` from `uh[q]` and `duh[q]`.
The `dduh`, `normals` and `points` arguments are received but never read. -/
noncomputable def compute_derived_quantities_scalar (dim : ℕ)
    (uh : List ℝ) (duh : List (Fin dim → ℝ))
    (dduh : List (Fin dim → Fin dim → ℝ))
    (normals : List (Fin dim → ℝ)) (points : List (Fin dim → ℝ)) :
    List (Fin (dim + 2) → ℝ) :=
  List.zipWith (fun u g => derived_quantities_at u g) uh duh

/-- `Postprocessor<dim>::get_names`: pushes the string `"Diretion"` once per
space dimension, then `"sMin"`, then `"sMax"`. -/
def get_names (dim : ℕ) : List String :=
  List.replicate dim "Diretion" ++ ["sMin", "sMax"]

/-- The two values of `DataComponentInterpretation` used by the program. -/
inductive DataComponentInterpretation
  | component_is_scalar
  | component_is_part_of_vector
deriving DecidableEq

/-- `Postprocessor<dim>::get_data_component_interpretation`: a vector of
`dim` copies of `component_is_part_of_vector` followed by two
`component_is_scalar` entries (for sMin and sMax). -/
def get_data_component_interpretation (dim : ℕ) :
    List DataComponentInterpretation :=
  List.replicate dim DataComponentInterpretation.component_is_part_of_vector ++
    [DataComponentInterpretation.component_is_scalar,
     DataComponentInterpretation.component_is_scalar]

/-! ## The output stage (wallDist.cc lines 283-298) -/

/-- The file name chosen in `Step4<dim>::output_results`:
`dim == 2 ? "solution-2d.vtk" : "solution-3d.vtk"`. -/
def output_results_filename (dim : ℕ) : String :=
  if dim = 2 then "solution-2d.vtk" else "solution-3d.vtk"

/-! ## List access helpers -/

theorem listGetD_zipWith {α β γ : Type} (f : α → β → γ)
    (l₁ : List α) (l₂ : List β) (q : ℕ) (d₁ : α) (d₂ : β) (dc : γ)
    (h₁ : q < l₁.length) (h₂ : q < l₂.length) :
    (List.zipWith f l₁ l₂).getD q dc = f (l₁.getD q d₁) (l₂.getD q d₂) := by
  induction l₁ generalizing l₂ q with
  | nil => simp at h₁
  | cons a l₁ ih =>
    cases l₂ with
    | nil => simp at h₂
    | cons b l₂ =>
      cases q with
      | zero => simp [List.getD]
      | succ q =>
        simp only [List.zipWith, List.getD, List.get?] at *
        exact ih l₂ q (Nat.lt_of_succ_lt_succ h₁) (Nat.lt_of_succ_lt_succ h₂)

theorem listGetD_append_left {α : Type} (l l' : List α) (n : ℕ) (d : α)
    (h : n < l.length) : (l ++ l').getD n d = l.getD n d := by
  induction l generalizing n with
  | nil => simp at h
  | cons a l ih =>
    cases n with
    | zero => simp [List.getD]
    | succ n =>
      simp only [List.cons_append, List.getD, List.get?]
      exact ih n (Nat.lt_of_succ_lt_succ h)

theorem listGetD_append_right {α : Type} (l l' : List α) (n : ℕ) (d : α)
    (h : l.length ≤ n) : (l ++ l').getD n d = l'.getD (n - l.length) d := by
  induction l generalizing n with
  | nil => simp
  | cons a l ih =>
    cases n with
    | zero => simp at h
    | succ n =>
      simp only [List.cons_append, List.getD, List.get?, List.length_cons]
      simpa using ih n (Nat.le_of_succ_le_succ h)

theorem listGetD_replicate {α : Type} (a d : α) (k n : ℕ) (h : n < k) :
    (List.replicate k a).getD n d = a := by
  induction k generalizing n with
  | zero => omega
  | succ k ih =>
    cases n with
    | zero => simp [List.getD]
    | succ n =>
      simp only [List.replicate, List.getD, List.get?]
      exact ih n (Nat.lt_of_succ_lt_succ h)

/-! ## Claims about constants and names -/

/-- C5: the right-hand-side function returns the constant `1` and the
boundary-values function the constant `0`, for every point and component;
neither depends on its arguments. -/
theorem rhs_one_bv_zero (dim : ℕ) (p p' : Fin dim → ℝ) (c c' : ℕ) :
    RightHandSide.value dim p c = 1 ∧ BoundaryValues.value dim p c = 0 ∧
    RightHandSide.value dim p c = RightHandSide.value dim p' c' ∧
    BoundaryValues.value dim p c = BoundaryValues.value dim p' c' :=
  ⟨rfl, rfl, rfl, rfl⟩

/-- C8: the output stage writes `solution-2d.vtk` when `dim = 2` and
`solution-3d.vtk` when `dim = 3`. -/
theorem output_filename_by_dim :
    output_results_filename 2 = "solution-2d.vtk" ∧
    output_results_filename 3 = "solution-3d.vtk" :=
  ⟨rfl, rfl⟩

/-- C4 (evaluation at the failing input): for `dim = 2` the component names
produced by `get_names` are `"Diretion"` (a misspelling), not `"Direction"`
as documented. -/
theorem get_names_two_eval :
    get_names 2 = ["Diretion", "Diretion", "sMin", "sMax"] ∧
    (get_names 2).getD 0 "" ≠ "Direction" := by
  constructor
  · rfl
  · decide

/-- C9: the post-processor output does not depend on the second-derivative,
normal-vector or point-coordinate arguments: two calls with the same `uh`
and `duh` but arbitrary differing `dduh`, `normals` and `points` produce
identical computed quantities. -/
theorem postprocessor_ignores_dduh_normals_points (dim : ℕ)
    (uh : List ℝ) (duh : List (Fin dim → ℝ))
    (dduh₁ dduh₂ : List (Fin dim → Fin dim → ℝ))
    (normals₁ normals₂ points₁ points₂ : List (Fin dim → ℝ)) :
    compute_derived_quantities_scalar dim uh duh dduh₁ normals₁ points₁ =
    compute_derived_quantities_scalar dim uh duh dduh₂ normals₂ points₂ :=
  rfl

/-- C10: `get_names` and `get_data_component_interpretation` both have
length `dim + 2` and are index-aligned with the output components: the
first `dim` entries carry the (single, repeated) vector-component name
paired with `component_is_part_of_vector`, and the last two entries are
`"sMin"` and `"sMax"`, each paired with `component_is_scalar`. -/
theorem names_interpretation_aligned (dim : ℕ) :
    (get_names dim).length = dim + 2 ∧
    (get_data_component_interpretation dim).length = dim + 2 ∧
    (∀ i : Fin dim,
      (get_names dim).getD i.1 "" = (get_names dim).getD 0 "" ∧
      (get_data_component_interpretation dim).getD i.1
          DataComponentInterpretation.component_is_scalar =
        DataComponentInterpretation.component_is_part_of_vector) ∧
    (get_names dim).getD dim "" = "sMin" ∧
    (get_names dim).getD (dim + 1) "" = "sMax" ∧
    (get_data_component_interpretation dim).getD dim
        DataComponentInterpretation.component_is_part_of_vector =
      DataComponentInterpretation.component_is_scalar ∧
    (get_data_component_interpretation dim).getD (dim + 1)
        DataComponentInterpretation.component_is_part_of_vector =
      DataComponentInterpretation.component_is_scalar := by
  refine ⟨?_, ?_, ?_, ?_, ?_, ?_, ?_⟩
  · simp [get_names]
  · simp [get_data_component_interpretation]
  · intro i
    constructor
    · rw [get_names, listGetD_append_left _ _ _ _ (by simpa using i.2),
        listGetD_replicate _ _ _ _ i.2]
      cases dim with
      | zero => exact absurd i.2 (Nat.not_lt_zero _)
      | succ k =>
        rw [listGetD_append_left _ _ _ _ (by simp),
          listGetD_replicate _ _ _ _ (Nat.succ_pos k)]
    · rw [get_data_component_interpretation,
        listGetD_append_left _ _ _ _ (by simpa using i.2),
        listGetD_replicate _ _ _ _ i.2]
  · rw [get_names, listGetD_append_right _ _ _ _ (by simp)]
    simp [List.getD]
  · rw [get_names, listGetD_append_right _ _ _ _ (by simp)]
    simp [List.getD]
  · rw [get_data_component_interpretation,
      listGetD_append_right _ _ _ _ (by simp)]
    simp [List.getD]
  · rw [get_data_component_interpretation,
      listGetD_append_right _ _ _ _ (by simp)]
    simp [List.getD]

/-! ## Post-processor value claims -/

/-- C1: for every quadrature point `q`, the output row of
`compute_derived_quantities_scalar` copies the gradient through its first
`dim` components, puts `sqrt(max(|duh[q]|^2 + 2*uh[q], 0))` minus the L1 sum
of the gradient entries in component `dim` (sMin), and the same square root
plus that L1 sum in component `dim+1` (sMax). -/
theorem compute_derived_quantities_scalar_spec (dim : ℕ)
    (uh : List ℝ) (duh : List (Fin dim → ℝ))
    (dduh : List (Fin dim → Fin dim → ℝ))
    (normals points : List (Fin dim → ℝ))
    (hlen : duh.length = uh.length) (q : ℕ) (hq : q < uh.length) :
    (∀ d : Fin dim,
      (compute_derived_quantities_scalar dim uh duh dduh normals points).getD q
          (fun _ => 0) ⟨d.1, Nat.lt_succ_of_lt (Nat.lt_succ_of_lt d.2)⟩ =
        duh.getD q (fun _ => 0) d) ∧
    (compute_derived_quantities_scalar dim uh duh dduh normals points).getD q
        (fun _ => 0) ⟨dim, by omega⟩ =
      Real.sqrt (max ((∑ k, duh.getD q (fun _ => 0) k * duh.getD q (fun _ => 0) k)
          + 2 * uh.getD q 0) 0) - ∑ k, |duh.getD q (fun _ => 0) k| ∧
    (compute_derived_quantities_scalar dim uh duh dduh normals points).getD q
        (fun _ => 0) ⟨dim + 1, by omega⟩ =
      Real.sqrt (max ((∑ k, duh.getD q (fun _ => 0) k * duh.getD q (fun _ => 0) k)
          + 2 * uh.getD q 0) 0) + ∑ k, |duh.getD q (fun _ => 0) k| := by
  have hq' : q < duh.length := hlen ▸ hq
  have key : (compute_derived_quantities_scalar dim uh duh dduh normals
      points).getD q (fun _ => 0) =
      derived_quantities_at (uh.getD q 0) (duh.getD q (fun _ => 0)) := by
    rw [compute_derived_quantities_scalar]
    exact listGetD_zipWith _ _ _ _ _ _ _ hq hq'
  refine ⟨?_, ?_, ?_⟩
  · intro d
    rw [key]
    simp [derived_quantities_at, d.2]
  · rw [key]
    simp [derived_quantities_at, sqrt_argument, radicand, l2_square, l1_accum]
  · rw [key]
    simp [derived_quantities_at, sqrt_argument, radicand, l2_square, l1_accum]

/-- Witness for C1: at `dim = 1`, `uh = [0]`, `duh = [0]`, both the sMin and
the sMax components evaluate to `0`. -/
theorem compute_derived_quantities_scalar_spec_witness :
    (compute_derived_quantities_scalar 1 [0] [fun _ => 0] [] [] []).getD 0
        (fun _ => 0) ⟨1, by omega⟩ = 0 ∧
    (compute_derived_quantities_scalar 1 [0] [fun _ => 0] [] [] []).getD 0
        (fun _ => 0) ⟨2, by omega⟩ = 0 := by
  have h := compute_derived_quantities_scalar_spec 1 [0] [fun _ => 0] [] [] []
      rfl 0 (by norm_num)
  obtain ⟨-, h1, h2⟩ := h
  constructor
  · rw [h1]
    simp
  · rw [h2]
    simp

/-- C3 counterexample: at a quadrature point with `uh[q] = 0` and gradient
`(1, 1)` in two dimensions, the sMin output is `sqrt 2 - 2 < 0`, so the
claimed bound `sMin >= 0` fails. -/
theorem postprocessor_sMin_negative :
    (compute_derived_quantities_scalar 2 [0] [fun _ => 1] [] [] []).getD 0
        (fun _ => 0) ⟨2, by omega⟩ < 0 := by
  have key : (compute_derived_quantities_scalar 2 [0] [fun _ => 1] [] []
      []).getD 0 (fun _ => 0) = derived_quantities_at 0 (fun _ => 1) := by
    rw [compute_derived_quantities_scalar]
    have := listGetD_zipWith (fun u g => derived_quantities_at u g)
      [(0 : ℝ)] [fun _ : Fin 2 => (1 : ℝ)] 0 0 (fun _ => 0) (fun _ => 0)
      (by norm_num) (by norm_num)
    simpa [List.getD] using this
  rw [key]
  have harg : sqrt_argument (0 : ℝ) (fun _ : Fin 2 => (1 : ℝ)) = 2 := by
    norm_num [sqrt_argument, radicand, l2_square, Finset.sum_const]
  have hl1 : l1_accum (fun _ : Fin 2 => (1 : ℝ)) = 2 := by
    norm_num [l1_accum, Finset.sum_const]
  have hs : Real.sqrt 2 < 2 := by
    nlinarith [Real.sq_sqrt (show (0 : ℝ) ≤ 2 by norm_num), Real.sqrt_nonneg 2]
  simp only [derived_quantities_at, if_true]
  rw [harg, hl1, dif_neg (lt_irrefl 2)]
  linarith

/-- C3 amended: for every quadrature point, the outputs satisfy
`sMin <= sMax` and `0 <= sMax`; the lower output sMin may be negative. -/
theorem postprocessor_sMax_ge_sMin (dim : ℕ)
    (uh : List ℝ) (duh : List (Fin dim → ℝ))
    (dduh : List (Fin dim → Fin dim → ℝ))
    (normals points : List (Fin dim → ℝ))
    (hlen : duh.length = uh.length) (q : ℕ) (hq : q < uh.length) :
    (compute_derived_quantities_scalar dim uh duh dduh normals points).getD q
        (fun _ => 0) ⟨dim, by omega⟩ ≤
      (compute_derived_quantities_scalar dim uh duh dduh normals points).getD q
        (fun _ => 0) ⟨dim + 1, by omega⟩ ∧
    0 ≤ (compute_derived_quantities_scalar dim uh duh dduh normals
        points).getD q (fun _ => 0) ⟨dim + 1, by omega⟩ := by
  have hq' : q < duh.length := hlen ▸ hq
  have key : (compute_derived_quantities_scalar dim uh duh dduh normals
      points).getD q (fun _ => 0) =
      derived_quantities_at (uh.getD q 0) (duh.getD q (fun _ => 0)) := by
    rw [compute_derived_quantities_scalar]
    exact listGetD_zipWith _ _ _ _ _ _ _ hq hq'
  rw [key]
  have hl1 : 0 ≤ l1_accum (duh.getD q (fun _ => 0)) :=
    Finset.sum_nonneg fun _ _ => abs_nonneg _
  have hsq : 0 ≤ Real.sqrt (sqrt_argument (uh.getD q 0)
      (duh.getD q (fun _ => 0))) := Real.sqrt_nonneg _
  simp only [derived_quantities_at, if_true]
  rw [dif_neg (show ¬(dim + 1 < dim) by omega),
    if_neg (show ¬(dim + 1 = dim) by omega), dif_neg (lt_irrefl dim)]
  constructor
  · linarith
  · linarith

/-- Witness for the amended C3: at `dim = 1`, `uh = [0]`, `duh = [0]` the
sMin component is at most the sMax component and the sMax component is
non-negative. -/
theorem postprocessor_sMax_ge_sMin_witness :
    (compute_derived_quantities_scalar 1 [0] [fun _ => 0] [] [] []).getD 0
        (fun _ => 0) ⟨1, by omega⟩ ≤
      (compute_derived_quantities_scalar 1 [0] [fun _ => 0] [] [] []).getD 0
        (fun _ => 0) ⟨2, by omega⟩ ∧
    0 ≤ (compute_derived_quantities_scalar 1 [0] [fun _ => 0] [] [] []).getD 0
        (fun _ => 0) ⟨2, by omega⟩ :=
  postprocessor_sMax_ge_sMin 1 [0] [fun _ => 0] [] [] [] rfl 0 (by norm_num)

/-- C7: the argument handed to the square root is
`max(l2_square + 2*uh[q], 0)`, which is never negative; when the asserted
precondition `l2_square + 2*uh[q] >= 0` fails, the clamp makes the argument
exactly `0`; and both distance components apply the square root only to that
clamped argument. -/
theorem sqrt_argument_clamped (dim : ℕ) (u : ℝ) (g : Fin dim → ℝ) :
    0 ≤ sqrt_argument u g ∧
    (¬ assert_radicand_nonneg u g → sqrt_argument u g = 0) ∧
    derived_quantities_at u g ⟨dim, by omega⟩ =
      Real.sqrt (sqrt_argument u g) - l1_accum g ∧
    derived_quantities_at u g ⟨dim + 1, by omega⟩ =
      Real.sqrt (sqrt_argument u g) + l1_accum g := by
  refine ⟨le_max_right _ _, ?_, ?_, ?_⟩
  · intro h
    rw [assert_radicand_nonneg] at h
    rw [sqrt_argument]
    exact max_eq_right (le_of_lt (lt_of_not_ge h))
  · simp only [derived_quantities_at, if_true]
    rw [dif_neg (lt_irrefl dim)]
  · simp only [derived_quantities_at]
    rw [dif_neg (show ¬(dim + 1 < dim) by omega),
      if_neg (show ¬(dim + 1 = dim) by omega)]

/-- Witness for C7: at `dim = 1`, `u = -1`, `g = 0` the asserted
precondition fails and the clamped square-root argument is `0` (and
non-negative). -/
theorem sqrt_argument_clamped_witness :
    0 ≤ sqrt_argument (-1 : ℝ) (fun _ : Fin 1 => 0) ∧
    sqrt_argument (-1 : ℝ) (fun _ : Fin 1 => 0) = 0 := by
  have h := sqrt_argument_clamped 1 (-1) (fun _ => 0)
  refine ⟨h.1, h.2.1 ?_⟩
  norm_num [assert_radicand_nonneg, radicand, l2_square]

/-! ## The solve stage (wallDist.cc lines 264-279) -/

/-- The iterative method selected in `Step4<dim>::solve` (`SolverCG<>`). -/
inductive IterMethod
  | CG
deriving DecidableEq

/-- The preconditioner built in `Step4<dim>::solve`
(`PreconditionSSOR<>` with its relaxation parameter). -/
inductive Precond
  | SSOR (relaxation : ℚ)
deriving DecidableEq

/-- The pieces of the solve-stage configuration. -/
structure SolveConfig where
  max_steps : ℕ
  tolerance : ℚ
  method : IterMethod
  precond : Precond
deriving DecidableEq

/-- The configuration of `Step4<dim>::solve`: `SolverControl(1000, 1e-12)`,
`SolverCG<>`, and `preconditioner.initialize(system_matrix, 1.0)`. -/
def Step4.solve_config : SolveConfig :=
  ⟨1000, 1 / 10 ^ 12, IterMethod.CG, Precond.SSOR 1⟩

/-- `SolverControl(1000, ...)`: the iteration cap. -/
def cg_max_steps : ℕ := 1000

/-- `SolverControl(..., 1e-12)`: the residual tolerance. -/
def cg_tolerance : ℚ := 1 / 10 ^ 12

/-- Outcome of the iterative solve: the step at which the residual dropped
to the tolerance, or the step at which the iteration cap stopped it. -/
inductive SolverOutcome
  | converged (steps : ℕ)
  | noConvergence (steps : ℕ)
deriving DecidableEq

/-- `SolverControl::last_step()`: the step count the control saw last. -/
def SolverOutcome.last_step : SolverOutcome → ℕ
  | SolverOutcome.converged k => k
  | SolverOutcome.noConvergence k => k

/-- Modelled from the spec: the CG iteration driven by a deal.II
`SolverControl` is library code, not part of this repository. Per the spec
("Termination: the residual 2-norm is at most 1e-12 OR k = 1000; the latter
is a failure") the loop at step `k` with residual history `res` succeeds as
soon as `res k` is at most the tolerance and fails once `k` reaches the cap.
`fuel` bounds the recursion; every call site passes `fuel` with
`max_steps ≤ k + fuel`, which makes the `fuel = 0` case coincide with the
cap check. -/
def cg_iterate (max_steps : ℕ) (tol : ℚ) (res : ℕ → ℚ) :
    ℕ → ℕ → SolverOutcome
  | k, 0 =>
    if res k ≤ tol then SolverOutcome.converged k
    else SolverOutcome.noConvergence k
  | k, fuel + 1 =>
    if res k ≤ tol then SolverOutcome.converged k
    else if max_steps ≤ k then SolverOutcome.noConvergence k
    else cg_iterate max_steps tol res (k + 1) fuel

/-- The solve stage as a function of the residual history: run the
preconditioned CG iteration from step 0 under `SolverControl(1000, 1e-12)`. -/
def Step4.solve_outcome (res : ℕ → ℚ) : SolverOutcome :=
  cg_iterate cg_max_steps cg_tolerance res 0 cg_max_steps

theorem cg_iterate_converged (max_steps : ℕ) (tol : ℚ) (res : ℕ → ℚ) :
    ∀ fuel k₀ k, k₀ ≤ max_steps →
      cg_iterate max_steps tol res k₀ fuel = SolverOutcome.converged k →
      res k ≤ tol ∧ k₀ ≤ k ∧ k ≤ max_steps ∧
        ∀ j, k₀ ≤ j → j < k → tol < res j := by
  intro fuel
  induction fuel with
  | zero =>
    intro k₀ k hk₀ h
    rw [cg_iterate] at h
    split_ifs at h with hr
    · obtain rfl : k₀ = k := by injection h
      exact ⟨hr, le_refl _, hk₀, fun j hj1 hj2 => absurd hj2 (by omega)⟩
  | succ fuel ih =>
    intro k₀ k hk₀ h
    rw [cg_iterate] at h
    split_ifs at h with hr hm
    · obtain rfl : k₀ = k := by injection h
      exact ⟨hr, le_refl _, hk₀, fun j hj1 hj2 => absurd hj2 (by omega)⟩
    · obtain ⟨h1, h2, h3, h4⟩ := ih (k₀ + 1) k (by omega) h
      refine ⟨h1, by omega, h3, fun j hj1 hj2 => ?_⟩
      rcases Nat.eq_or_lt_of_le hj1 with rfl | hgt
      · exact lt_of_not_ge hr
      · exact h4 j hgt hj2

theorem cg_iterate_noConvergence (max_steps : ℕ) (tol : ℚ) (res : ℕ → ℚ) :
    ∀ fuel k₀ k, max_steps ≤ k₀ + fuel → k₀ ≤ max_steps →
      cg_iterate max_steps tol res k₀ fuel = SolverOutcome.noConvergence k →
      k = max_steps ∧ ∀ j, k₀ ≤ j → j ≤ max_steps → tol < res j := by
  intro fuel
  induction fuel with
  | zero =>
    intro k₀ k hfuel hk₀ h
    rw [cg_iterate] at h
    split_ifs at h with hr
    · obtain rfl : k₀ = k := by injection h
      refine ⟨by omega, fun j hj1 hj2 => ?_⟩
      obtain rfl : j = k₀ := by omega
      exact lt_of_not_ge hr
  | succ fuel ih =>
    intro k₀ k hfuel hk₀ h
    rw [cg_iterate] at h
    split_ifs at h with hr hm
    · obtain rfl : k₀ = k := by injection h
      refine ⟨by omega, fun j hj1 hj2 => ?_⟩
      obtain rfl : j = k₀ := by omega
      exact lt_of_not_ge hr
    · obtain ⟨h1, h2⟩ := ih (k₀ + 1) k (by omega) (by omega) h
      refine ⟨h1, fun j hj1 hj2 => ?_⟩
      rcases Nat.eq_or_lt_of_le hj1 with rfl | hgt
      · exact lt_of_not_ge hr
      · exact h2 j hgt hj2

/-- C6: the solve stage uses CG with an SSOR preconditioner at relaxation
`1.0`, and the iteration stops when the residual 2-norm is at most `1e-12`
(success, within at most 1000 steps, at the first such step) or when 1000
iterations are reached without that happening (failure). -/
theorem solve_cg_ssor_termination (res : ℕ → ℚ) (k : ℕ) :
    Step4.solve_config = ⟨1000, 1 / 10 ^ 12, IterMethod.CG, Precond.SSOR 1⟩ ∧
    (Step4.solve_outcome res = SolverOutcome.converged k →
      res k ≤ 1 / 10 ^ 12 ∧ k ≤ 1000 ∧ ∀ j, j < k → 1 / 10 ^ 12 < res j) ∧
    (Step4.solve_outcome res = SolverOutcome.noConvergence k →
      k = 1000 ∧ ∀ j, j ≤ 1000 → 1 / 10 ^ 12 < res j) := by
  refine ⟨rfl, ?_, ?_⟩
  · intro h
    obtain ⟨h1, -, h3, h4⟩ := cg_iterate_converged cg_max_steps cg_tolerance
      res cg_max_steps 0 k (by norm_num [cg_max_steps]) h
    exact ⟨h1, h3, fun j hj => h4 j (Nat.zero_le j) hj⟩
  · intro h
    obtain ⟨h1, h2⟩ := cg_iterate_noConvergence cg_max_steps cg_tolerance
      res cg_max_steps 0 k (by norm_num) (by norm_num [cg_max_steps]) h
    exact ⟨h1, fun j hj => h2 j (Nat.zero_le j) hj⟩

/-- Witness for C6: with an identically-zero residual history the solve
converges at step 0, the residual bound holds there, and 0 is within the
iteration cap. -/
theorem solve_cg_ssor_termination_witness :
    Step4.solve_outcome (fun _ => 0) = SolverOutcome.converged 0 ∧
    (fun _ : ℕ => (0 : ℚ)) 0 ≤ 1 / 10 ^ 12 ∧ (0 : ℕ) ≤ 1000 := by
  have h0 : Step4.solve_outcome (fun _ => 0) = SolverOutcome.converged 0 := by
    rw [Step4.solve_outcome, cg_max_steps, cg_iterate]
    norm_num [cg_tolerance]
  have h := solve_cg_ssor_termination (fun _ => 0) 0
  exact ⟨h0, (h.2.1 h0).1, (h.2.1 h0).2.1⟩

/-! ## The driver `Step4<dim>::run` (wallDist.cc lines 303-313) -/

/-- The observable actions of the pipeline stages. -/
inductive PipelineAction
  | makeGrid
  | setupSystem
  | assembleSystem
  | console (line : String)
  | writeFile (filename : String)
deriving DecidableEq

/-- Modelled from the spec together with `Step4<dim>::run` and
`Step4<dim>::solve`: how the deal.II solver surfaces non-convergence is
library behaviour, and per the spec it is "reported diagnostically" and
"surfaced to the caller who decides whether to continue (current
implementation continues)". So `solve` always returns to `run` with an
outcome, prints `solver_control.last_step()` followed by the fixed console
message, and `run` proceeds through `make_grid`, `setup_system`,
`assemble_system`, `solve` and `output_results` unconditionally, the last
stage writing the VTK file named by `output_results_filename`. -/
def Step4.run_trace (dim : ℕ) (res : ℕ → ℚ) : List PipelineAction :=
  [PipelineAction.console
      ("Solving problem in " ++ toString dim ++ " space dimensions."),
   PipelineAction.makeGrid,
   PipelineAction.setupSystem,
   PipelineAction.assembleSystem,
   PipelineAction.console
      ("   " ++ toString (Step4.solve_outcome res).last_step ++
        " CG iterations needed to obtain convergence."),
   PipelineAction.writeFile (output_results_filename dim)]

/-- C2: when the residual never reaches the tolerance within the cap of
1000 iterations, the solve ends in `noConvergence` at step 1000, the
diagnostic line still reports the 1000 steps, and the pipeline still goes
on to write the VTK output file afterwards. -/
theorem cg_cap_nonfatal (res : ℕ → ℚ)
    (h : ∀ j, j ≤ 1000 → 1 / 10 ^ 12 < res j) :
    Step4.solve_outcome res = SolverOutcome.noConvergence 1000 ∧
    Step4.run_trace 2 res =
      [PipelineAction.console "Solving problem in 2 space dimensions.",
       PipelineAction.makeGrid,
       PipelineAction.setupSystem,
       PipelineAction.assembleSystem,
       PipelineAction.console
         "   1000 CG iterations needed to obtain convergence.",
       PipelineAction.writeFile "solution-2d.vtk"] := by
  have houtcome : Step4.solve_outcome res = SolverOutcome.noConvergence 1000 := by
    cases hc : Step4.solve_outcome res with
    | converged k =>
      obtain ⟨h1, -, h3, -⟩ := cg_iterate_converged cg_max_steps cg_tolerance
        res cg_max_steps 0 k (by norm_num [cg_max_steps]) hc
      have hk : k ≤ 1000 := by simpa [cg_max_steps] using h3
      exact absurd h1 (not_le_of_lt (by simpa [cg_tolerance] using h k hk))
    | noConvergence k =>
      obtain ⟨h1, -⟩ := cg_iterate_noConvergence cg_max_steps cg_tolerance
        res cg_max_steps 0 k (by norm_num) (by norm_num [cg_max_steps]) hc
      rw [h1, cg_max_steps]
  refine ⟨houtcome, ?_⟩
  rw [Step4.run_trace, houtcome]
  rfl

/-- Witness for C2: a residual history stuck at 1 never converges; the
solve reports non-convergence at step 1000 and the VTK file write still
appears in the pipeline trace. -/
theorem cg_cap_nonfatal_witness :
    Step4.solve_outcome (fun _ => 1) = SolverOutcome.noConvergence 1000 ∧
    Step4.run_trace 2 (fun _ => 1) =
      [PipelineAction.console "Solving problem in 2 space dimensions.",
       PipelineAction.makeGrid,
       PipelineAction.setupSystem,
       PipelineAction.assembleSystem,
       PipelineAction.console
         "   1000 CG iterations needed to obtain convergence.",
       PipelineAction.writeFile "solution-2d.vtk"] :=
  cg_cap_nonfatal (fun _ => 1) (by intro j hj; norm_num)
